import Mathlib

/-!
Verification development for the retrieval-augmented conversation backend
(`apps/api/src/modules/{chat,ai,knowledge}`).

The TypeScript sources are shallowly embedded:
* JS strings are modelled as `List Char`; JS numbers used for vector
  arithmetic are modelled as real numbers.
* The Mongo document store and the in-memory conversation cache are modelled
  as explicit pure state (`ChatState`); every service method becomes a state
  transformer.  Object ids and `createdAt` timestamps are drawn from one
  monotone allocator, which models Mongo's unique ids and the append-only,
  ascending-`createdAt` message log.
* Calls to external capabilities (OpenAI embeddings / generation, the
  Bottleneck scheduler admission) are parameters of the embedded functions:
  an `Except` value or an oracle function describes the outcome the remote
  side produced.
-/

/- ======================================================================
   Section 1: KnowledgeService.splitIntoChunks
   Source: knowledge.service.ts, `splitIntoChunks(text, maxChunkSize = 1000)`
   which splits on the regex /(?<=[.!?])\s+/ and greedily packs sentences.
   ====================================================================== -/

/-- The sentence-terminal punctuation class `[.!?]` of the split regex. -/
def isSentencePunct (c : Char) : Bool := c = '.' || c = '!' || c = '?'

/-- The `\s` character class (ASCII part; space, tab, newlines, vertical
tab, form feed).  All inputs considered in this file use only these. -/
def isJsWs (c : Char) : Bool :=
  c = ' ' || c = '\t' || c = '\n' || c = '\r' || c.val = 11 || c.val = 12

/-- The lookbehind `(?<=[.!?])`: the character immediately before the
whitespace run is the last character accumulated so far. -/
def lastIsPunct (cur : List Char) : Bool :=
  match cur.getLast? with
  | some c => isSentencePunct c
  | none => false

/-- `text.split(/(?<=[.!?])\s+/)` scanned character by character.
`cur` is the sentence accumulated so far; `skipping` is true while the
scanner is inside a separator's (greedy, maximal) whitespace run. -/
def sentencesGo : List Char → List Char → Bool → List (List Char)
  | [], cur, _ => [cur]
  | c :: rest, cur, skipping =>
    if skipping then
      if isJsWs c then sentencesGo rest cur true
      else sentencesGo rest [c] false
    else if isJsWs c && lastIsPunct cur then
      cur :: sentencesGo rest [] true
    else
      sentencesGo rest (cur ++ [c]) false

/-- `const sentences = text.split(/(?<=[.!?])\s+/);` -/
def splitSentences (text : List Char) : List (List Char) := sentencesGo text [] false

/-- `String.prototype.trim()` restricted to the whitespace set above. -/
def jsTrim (s : List Char) : List Char :=
  ((s.dropWhile isJsWs).reverse.dropWhile isJsWs).reverse

/-- The greedy packing loop of `splitIntoChunks`: flush the buffer when
appending the next sentence would exceed `maxChunkSize` (the length check
`(currentChunk + sentence).length` does not count the joining space that
the append `currentChunk += ' ' + sentence` inserts), then flush the final
non-empty buffer. -/
def packGo (maxChunkSize : Nat) : List (List Char) → List Char → List (List Char)
  | [], cur => if cur = [] then [] else [jsTrim cur]
  | s :: rest, cur =>
    if (cur ++ s).length > maxChunkSize ∧ cur ≠ [] then
      jsTrim cur :: packGo maxChunkSize rest s
    else
      packGo maxChunkSize rest (if cur = [] then s else cur ++ [' '] ++ s)

/-- `KnowledgeService.splitIntoChunks`.  The source defaults
`maxChunkSize` to 1000; here it is always passed explicitly. -/
def splitIntoChunks (text : List Char) (maxChunkSize : Nat) : List (List Char) :=
  packGo maxChunkSize (splitSentences text) []

/-- Total number of characters in a list of sentences. -/
def sumLen (l : List (List Char)) : Nat := (l.map List.length).sum

/-- Joining a sentence list the way the packing loop's `else` branch does:
a single space between the buffer and each appended sentence. -/
def joinBuffer : List Char → List (List Char) → List Char
  | cur, [] => cur
  | cur, s :: rest => joinBuffer (if cur = [] then s else cur ++ [' '] ++ s) rest

/- ======================================================================
   Section 2: KnowledgeService.cosineSimilarity
   Source: knowledge.service.ts, `cosineSimilarity(vecA, vecB)`.
   JS floating-point arithmetic is modelled over the reals.
   ====================================================================== -/

/-- The loop accumulator `dotProduct`. -/
def dotList (a b : List ℝ) : ℝ := (List.zipWith (fun x y => x * y) a b).sum

/-- The loop accumulators `normA` / `normB` (sums of squares, before the
square root is taken). -/
def normSq (a : List ℝ) : ℝ := (a.map (fun x => x * x)).sum

/-- `KnowledgeService.cosineSimilarity`: throws when the lengths differ,
returns 0 when `magnitude === 0`, else `dotProduct / magnitude`. -/
noncomputable def cosineSimilarity (vecA vecB : List ℝ) : Except String ℝ :=
  if vecA.length ≠ vecB.length then .error "Vectors must have the same length"
  else
    let magnitude := Real.sqrt (normSq vecA) * Real.sqrt (normSq vecB)
    .ok (if magnitude = 0 then 0 else dotList vecA vecB / magnitude)

/- ======================================================================
   Section 3: KnowledgeService.searchSimilar
   Source: knowledge.service.ts, `searchSimilar(query, options?)`.
   The stored chunk collection and the embedding call's outcome are
   explicit parameters.
   ====================================================================== -/

/-- The optional `metadata` subdocument of a knowledge chunk. -/
structure ChunkMetadata where
  tokenCount : Option Nat
  pageNumber : Option Nat
deriving DecidableEq

/-- A stored `KnowledgeChunk` document. -/
structure KnowledgeChunk where
  content : String
  courseId : String
  embedding : List ℝ
  chunkIndex : Nat
  metadata : Option ChunkMetadata

/-- A chunk together with its computed `score` (the spread
`{ ...chunk, score }` of the source). -/
structure ScoredChunk extends KnowledgeChunk where
  score : ℝ

/-- A `SearchResult` as returned to callers. -/
structure SearchResult where
  content : String
  courseId : String
  score : ℝ
  metadata : Option ChunkMetadata

/-- JS `options?.limit || 3`: `undefined` and the falsy value 0 both fall
back to the default. -/
def jsOrNat (o : Option Nat) (d : Nat) : Nat :=
  match o with
  | none => d
  | some n => if n = 0 then d else n

/-- JS `options?.minScore || 0.5`: `undefined` and the falsy value 0 both
fall back to the default. -/
noncomputable def jsOrReal (o : Option ℝ) (d : ℝ) : ℝ :=
  match o with
  | none => d
  | some m => if m = 0 then d else m

/-- `chunks.map((chunk) => ({ ...chunk, score: cosineSimilarity(...) }))`:
a thrown `DimensionMismatch` aborts the whole call at the first offending
chunk. -/
noncomputable def scoreChunks (queryEmbedding : List ℝ) :
    List KnowledgeChunk → Except String (List ScoredChunk)
  | [] => .ok []
  | c :: cs =>
    match cosineSimilarity queryEmbedding c.embedding with
    | .error e => .error e
    | .ok s =>
      match scoreChunks queryEmbedding cs with
      | .error e => .error e
      | .ok rest => .ok ({ toKnowledgeChunk := c, score := s } :: rest)

/-- `.filter((chunk) => chunk.score >= minScore)`. -/
noncomputable def filterByScore (minScore : ℝ) : List ScoredChunk → List ScoredChunk
  | [] => []
  | c :: cs =>
    if minScore ≤ c.score then c :: filterByScore minScore cs
    else filterByScore minScore cs

/-- Insertion step of a stable descending sort: a later element is placed
after every earlier element whose score is not smaller. -/
noncomputable def insertByScore (x : ScoredChunk) : List ScoredChunk → List ScoredChunk
  | [] => [x]
  | y :: ys => if x.score < y.score then y :: insertByScore x ys else x :: y :: ys

/-- `.sort((a, b) => b.score - a.score)`.  `Array.prototype.sort` is
required to be stable, and with this consistent comparator it produces the
unique stable non-increasing-by-score reordering, which this insertion
sort computes. -/
noncomputable def sortByScoreDesc : List ScoredChunk → List ScoredChunk
  | [] => []
  | x :: xs => insertByScore x (sortByScoreDesc xs)

/-- The ranked pipeline of `searchSimilar` up to (and including)
`.slice(0, limit)`, before the projection to `SearchResult`.
Parameters: `configured` is `isConfigured()` (whether an OpenAI key is
present); `embedQuery` is the outcome of `createEmbedding(query)`; `db` is
the chunk collection in store order, already restricted the way
`find(filter)` restricts it when `courseId` is given. -/
noncomputable def searchRanked (configured : Bool) (embedQuery : Except String (List ℝ))
    (db : List KnowledgeChunk) (courseId : Option String)
    (limitOpt : Option Nat) (minScoreOpt : Option ℝ) :
    Except String (List ScoredChunk) :=
  if !configured then .ok []
  else
    match embedQuery with
    | .error _ => .ok []
    | .ok queryEmbedding =>
      let candidates :=
        match courseId with
        | some cid => db.filter (fun c => c.courseId == cid)
        | none => db
      if candidates.isEmpty then .ok []
      else
        match scoreChunks queryEmbedding candidates with
        | .error e => .error e
        | .ok scored =>
          .ok ((sortByScoreDesc (filterByScore (jsOrReal minScoreOpt 0.5) scored)).take
            (jsOrNat limitOpt 3))

/-- `KnowledgeService.searchSimilar`: the ranked pipeline projected to
`SearchResult` records. -/
noncomputable def searchSimilar (configured : Bool) (embedQuery : Except String (List ℝ))
    (db : List KnowledgeChunk) (courseId : Option String)
    (limitOpt : Option Nat) (minScoreOpt : Option ℝ) :
    Except String (List SearchResult) :=
  match searchRanked configured embedQuery db courseId limitOpt minScoreOpt with
  | .error e => .error e
  | .ok ranked =>
    .ok (ranked.map (fun c =>
      { content := c.content, courseId := c.courseId, score := c.score,
        metadata := c.metadata }))

/- ======================================================================
   Section 4: ai.rate-limit.ts and AiService.response
   Source: `withRateLimitAndRetry(fn, opts?)` (Bottleneck scheduler, retry
   loop with exponential backoff and jitter) and the error mapping in
   `AiService.response`.
   The provider is an oracle `results : Nat → CallResult α` giving the
   outcome of the `attempt`-th invocation of `fn`; backoff delays and
   jitter are timing only and are not modelled.
   ====================================================================== -/

/-- Outcome of one invocation of the wrapped provider call: a value, or a
thrown error whose `status ?? response.status` field is as given. -/
inductive CallResult (α : Type) where
  | success (value : α)
  | failure (status : Option Nat)
deriving DecidableEq

/-- A thrown JS error, abstracted to the `status` field the wrapper and
the service inspect. -/
structure JsError where
  status : Option Nat
deriving DecidableEq

/-- The `for (;;)` retry loop.  The source throws when
`status !== 429 || attempt >= maxRetries` and otherwise sleeps and
retries with `attempt + 1`; here the loop counter is recast structurally
as `remaining = maxRetries - attempt`, so `attempt >= maxRetries` is
`remaining = 0`. -/
def retryGo {α : Type} (results : Nat → CallResult α) : Nat → Nat → Except JsError α
  | attempt, remaining =>
    match results attempt with
    | .success v => .ok v
    | .failure status =>
      if status = some 429 then
        match remaining with
        | 0 => .error ⟨status⟩
        | r + 1 => retryGo results (attempt + 1) r
      else .error ⟨status⟩

/-- `withRateLimitAndRetry(fn, opts)` with `maxRetries` explicit (the
source defaults it to 5).  `admitted` tells whether `limiter.schedule`
accepted the job.  The source wraps the call as
`try { return limiter.schedule(...) } catch (err) { ... }` WITHOUT
awaiting the scheduled promise, so the `try` block completes as soon as
the promise exists and an asynchronous rejection never reaches the
`catch`: the block that would map a Bottleneck queue-overflow rejection
to an `Error` with `status = 429` is dead code.  A queue drop therefore
rejects the returned promise with the raw `BottleneckError`, which
carries no `status` field (`.error ⟨none⟩` here); errors thrown inside
the retry loop propagate unchanged, which the catch's `throw err`
passthrough would also have done, so no other path is affected. -/
def withRateLimitAndRetry {α : Type} (admitted : Bool) (results : Nat → CallResult α)
    (maxRetries : Nat) : Except JsError α :=
  if admitted then retryGo results 0 maxRetries
  else .error ⟨none⟩

/-- The error taxonomy of the AI module's exceptions. -/
inductive AiError where
  | rateLimited
  | misconfigured
  | unavailable
deriving DecidableEq

/-- The configured branch of `AiService.response`: run the wrapped call
with the default `maxRetries = 5`, then map a thrown error's status:
429 to `OpenAiRateLimitException`, 401/403 to
`OpenAiMisconfiguredException`, anything else to
`OpenAiUnavailableException`.  (The unconfigured branch returns a
placeholder instead of calling the provider and is outside this model.) -/
def aiServiceResponse {α : Type} (admitted : Bool) (results : Nat → CallResult α) :
    Except AiError α :=
  match withRateLimitAndRetry admitted results 5 with
  | .ok v => .ok v
  | .error e =>
    if e.status = some 429 then .error .rateLimited
    else if e.status = some 401 ∨ e.status = some 403 then .error .misconfigured
    else .error .unavailable

/- ======================================================================
   Section 5: ChatService
   Source: chat.service.ts.  The two Mongo collections and the in-memory
   `conversationCache` map become one explicit state record; a single
   monotone allocator yields object ids and `createdAt`/`lastMessageAt`
   instants, modelling unique ids and the append-only ascending-createdAt
   message log.  Storage calls themselves are total (the store is an
   external collaborator specified at its interface); the fallible
   collaborators (retrieval, generation) stay explicit parameters.
   ====================================================================== -/

/-- Message roles. -/
inductive Role where
  | user
  | assistant
  | system
deriving DecidableEq

/-- One `MessageHistory` entry of the conversation cache
(`{role, content}`). -/
structure HistoryEntry where
  role : Role
  content : String
deriving DecidableEq

/-- The generation metadata stored on an assistant message. -/
structure MessageMeta where
  tokensUsed : Option Nat
  model : Option String
deriving DecidableEq

/-- A persisted `ChatMessage` document. -/
structure StoredMessage where
  id : Nat
  conversationId : Nat
  role : Role
  content : String
  metadata : Option MessageMeta
  createdAt : Nat
deriving DecidableEq

/-- A persisted `Conversation` document. -/
structure Conversation where
  id : Nat
  studentId : String
  title : String
  isActive : Bool
  lastMessageAt : Nat
  messageCount : Nat
deriving DecidableEq

/-- The state a `ChatService` instance acts on: the two collections, the
in-memory cache (an association list keyed by conversation id), and the
id/instant allocator. -/
structure ChatState where
  conversations : List Conversation
  messages : List StoredMessage
  conversationCache : List (Nat × List HistoryEntry)
  nextId : Nat
deriving DecidableEq

/-- `conversationCache.get(k)`. -/
def cacheLookup (cache : List (Nat × List HistoryEntry)) (k : Nat) :
    Option (List HistoryEntry) :=
  (cache.find? (fun p => p.1 == k)).map (fun p => p.2)

/-- `conversationCache.set(k, v)` (unique keys). -/
def cacheSet (cache : List (Nat × List HistoryEntry)) (k : Nat)
    (v : List HistoryEntry) : List (Nat × List HistoryEntry) :=
  (k, v) :: cache.filter (fun p => p.1 != k)

/-- `conversationCache.delete(k)`. -/
def cacheDelete (cache : List (Nat × List HistoryEntry)) (k : Nat) :
    List (Nat × List HistoryEntry) :=
  cache.filter (fun p => p.1 != k)

/-- The `createConversation(studentId)` helper.  The schema file is not
part of the sources here; `messageCount` starting at 0 is modelled from
the spec: a conversation is created before any message is appended to
it. -/
def createConversation (st : ChatState) (studentId : String) :
    Conversation × ChatState :=
  let conv : Conversation :=
    { id := st.nextId, studentId := studentId, title := "Nueva conversación",
      isActive := true, lastMessageAt := st.nextId, messageCount := 0 }
  (conv, { st with conversations := st.conversations ++ [conv],
                   nextId := st.nextId + 1 })

/-- `chatMessageModel.create({...})`. -/
def createMessage (st : ChatState) (conversationId : Nat) (role : Role)
    (content : String) (metadata : Option MessageMeta) :
    StoredMessage × ChatState :=
  let msg : StoredMessage :=
    { id := st.nextId, conversationId := conversationId, role := role,
      content := content, metadata := metadata, createdAt := st.nextId }
  (msg, { st with messages := st.messages ++ [msg], nextId := st.nextId + 1 })

/-- `conversationModel.findById(conversationId)` (with
`findById(undefined)` resolving to `null`). -/
def findConversation (st : ChatState) (conversationId : Option Nat) :
    Option Conversation :=
  match conversationId with
  | none => none
  | some cid => st.conversations.find? (fun c => c.id == cid)

/-- The messages of one conversation in store order.  Messages are only
ever appended with strictly increasing `createdAt`, so this list is the
`.sort({ createdAt: 1 })` ascending order. -/
def messagesOf (st : ChatState) (conversationId : Nat) : List StoredMessage :=
  st.messages.filter (fun m => m.conversationId == conversationId)

/-- The `getConversationHistory` helper: cache hit returns the entry;
a miss loads `.find({conversationId}).sort({createdAt: 1}).limit(20)` —
the FIRST twenty messages in ascending creation order — projects them to
`{role, content}` and caches the projection. -/
def getConversationHistory (st : ChatState) (conversationId : Nat) :
    List HistoryEntry × ChatState :=
  match cacheLookup st.conversationCache conversationId with
  | some history => (history, st)
  | none =>
    let history := ((messagesOf st conversationId).take 20).map
      (fun m => { role := m.role, content := m.content : HistoryEntry })
    (history, { st with
      conversationCache := cacheSet st.conversationCache conversationId history })

/-- `findByIdAndUpdate(id, { lastMessageAt: new Date(), $inc: { messageCount: 2 } })`. -/
def bumpConversation (st : ChatState) (conversationId : Nat) : ChatState :=
  { st with conversations := st.conversations.map (fun c =>
      if c.id == conversationId then
        { c with lastMessageAt := st.nextId, messageCount := c.messageCount + 2 }
      else c) }

/-- The value returned by `sendMessage`. -/
structure SendResult where
  conversationId : Nat
  userMessage : StoredMessage
  assistantMessage : StoredMessage
deriving DecidableEq

/-- The reply produced by `AiService.generateResponseWithRAG`. -/
structure AiResponse where
  content : String
  tokensUsed : Option Nat
  model : Option String
deriving DecidableEq

/-- `ChatService.sendMessage(dto)`.  `search` is the outcome of
`knowledgeService.searchSimilar(message, {limit: 3, minScore: 0.5})`
(a rejection is caught and replaced by an empty context); `gen` is the
outcome of `aiService.generateResponseWithRAG` as a function of the
history and grounding context passed to it.  A generation rejection
propagates to the caller. -/
def sendMessage (st : ChatState) (studentId message : String)
    (conversationId : Option Nat)
    (search : Except String (List SearchResult))
    (gen : List HistoryEntry → List String → Except String AiResponse) :
    Except String (SendResult × ChatState) :=
  let resolved : Conversation × ChatState :=
    match findConversation st conversationId with
    | some c => (c, st)
    | none => createConversation st studentId
  let conversation := resolved.1
  let st1 := resolved.2
  let created := createMessage st1 conversation.id .user message none
  let userMessage := created.1
  let st2 := created.2
  let relevantContext : List String :=
    match search with
    | .ok results => results.map (fun r => r.content)
    | .error _ => []
  let loaded := getConversationHistory st2 conversation.id
  let history := loaded.1
  let st3 := loaded.2
  match gen history relevantContext with
  | .error e => .error e
  | .ok aiResponse =>
    let created2 := createMessage st3 conversation.id .assistant aiResponse.content
      (some { tokensUsed := aiResponse.tokensUsed, model := aiResponse.model })
    let assistantMessage := created2.1
    let st4 := created2.2
    let st5 := bumpConversation st4 conversation.id
    .ok ({ conversationId := conversation.id, userMessage := userMessage,
           assistantMessage := assistantMessage }, st5)

/-- `ChatService.startNewConversation(studentId, initialContext?)`: create
the conversation, install a freshly allocated cache entry (seeded with one
system turn when `initialContext` is given), then mark every other
conversation of the student inactive. -/
def startNewConversation (st : ChatState) (studentId : String)
    (initialContext : Option String) : Conversation × ChatState :=
  let created := createConversation st studentId
  let conversation := created.1
  let st1 := created.2
  let history : List HistoryEntry :=
    match initialContext with
    | some ctx => [{ role := .system, content := ctx }]
    | none => []
  let st2 := { st1 with
    conversationCache := cacheSet st1.conversationCache conversation.id history }
  let st3 := { st2 with conversations := st2.conversations.map (fun c =>
    if c.studentId == studentId && c.id != conversation.id then
      { c with isActive := false }
    else c) }
  (conversation, st3)

/-- `ChatService.deleteHistory(studentId, conversationId)`: `none` models
the `null` not-found result; otherwise delete the conversation's messages,
the conversation, and its cache entry, returning `deletedCount`. -/
def deleteHistory (st : ChatState) (studentId : String) (conversationId : Nat) :
    Option Nat × ChatState :=
  match st.conversations.find? (fun c => c.id == conversationId &&
      c.studentId == studentId) with
  | none => (none, st)
  | some conversation =>
    let deletedCount := (st.messages.filter
      (fun m => m.conversationId == conversation.id)).length
    let keptMessages := st.messages.filter
      (fun m => m.conversationId != conversation.id)
    let keptConversations := st.conversations.filter
      (fun c => c.id != conversation.id)
    let st1 := { st with messages := keptMessages }
    let st2 := { st1 with conversations := keptConversations }
    let st3 := { st2 with
      conversationCache := cacheDelete st2.conversationCache conversationId }
    (some deletedCount, st3)

/-- One wire frame of the streaming protocol (`data: <json>` lines). -/
inductive Frame where
  | conversationId (id : Nat)
  | token (t : String)
  | done (messageId : Nat)
  | error (msg : String)
deriving DecidableEq

/-- `ChatService.streamResponse(dto)`.  The generator returned by
`aiService.generateStreamResponseWithRAG(message, history, context)` is
modelled by the oracle `genStream`: given the history and grounding
context it is called with, it determines the fragments it yields and
whether it then finishes (`none`) or raises (`some e`).  Returns the
frames the service generator yielded, the state it left behind, and the
error it raised, if any: a raise aborts the generator before the
assistant message is persisted. -/
def streamResponse (st : ChatState) (studentId message : String)
    (conversationId : Option Nat)
    (search : Except String (List SearchResult))
    (genStream : List HistoryEntry → List String → List String × Option String) :
    List Frame × ChatState × Option String :=
  let resolved : Conversation × ChatState :=
    match findConversation st conversationId with
    | some c => (c, st)
    | none => createConversation st studentId
  let conversation := resolved.1
  let st1 := resolved.2
  let firstFrame := Frame.conversationId conversation.id
  let created := createMessage st1 conversation.id .user message none
  let st2 := created.2
  let loaded := getConversationHistory st2 conversation.id
  let history := loaded.1
  let st3 := loaded.2
  let relevantContext : List String :=
    match search with
    | .ok results => results.map (fun r => r.content)
    | .error _ => []
  let streamed := genStream history relevantContext
  let fragments := streamed.1
  let tokenFrames := fragments.map Frame.token
  match streamed.2 with
  | some e => (firstFrame :: tokenFrames, st3, some e)
  | none =>
    let fullContent := String.join fragments
    let created2 := createMessage st3 conversation.id .assistant fullContent
      (some { tokensUsed := none, model := some "stream" })
    let assistantMessage := created2.1
    let st4 := created2.2
    let st5 := bumpConversation st4 conversation.id
    (firstFrame :: (tokenFrames ++ [Frame.done assistantMessage.id]), st5, none)

/-- `ChatController.streamMessage`: writes one `data:` frame per yielded
event and, when the generator rejects, one terminal `{error}` frame. -/
def streamMessage (st : ChatState) (studentId message : String)
    (conversationId : Option Nat)
    (search : Except String (List SearchResult))
    (genStream : List HistoryEntry → List String → List String × Option String) :
    List Frame :=
  let run := streamResponse st studentId message conversationId search genStream
  match run.2.2 with
  | some e => run.1 ++ [Frame.error e]
  | none => run.1

/-- Well-formedness of a chat state: every stored id and cache key is
below the allocator.  Every operation above preserves this; it rules out
id collisions with freshly created documents. -/
def WFChat (st : ChatState) : Prop :=
  (∀ c ∈ st.conversations, c.id < st.nextId) ∧
  (∀ m ∈ st.messages, m.id < st.nextId ∧ m.conversationId < st.nextId) ∧
  (∀ p ∈ st.conversationCache, p.1 < st.nextId)

instance (st : ChatState) : Decidable (WFChat st) := by
  unfold WFChat; infer_instance

/- ======================================================================
   Concrete fixtures used by witnesses and counterexamples.
   ====================================================================== -/

/-- A state with two cached conversations (ids 0 and 1) owned by student
`"s"`. -/
def wState1 : ChatState :=
  { conversations := [{ id := 0, studentId := "s", title := "t", isActive := true,
                        lastMessageAt := 0, messageCount := 4 }],
    messages := [],
    conversationCache := [(0, [{ role := .system, content := "a" }]),
                          (1, [{ role := .user, content := "b" }])],
    nextId := 2 }

/-- A state holding one conversation (id 0) whose context window is cached. -/
def wState2 : ChatState :=
  { conversations := [{ id := 0, studentId := "s", title := "t", isActive := true,
                        lastMessageAt := 0, messageCount := 2 }],
    messages := [],
    conversationCache := [(0, [{ role := .system, content := "ctx" }])],
    nextId := 1 }

/-- The empty initial state. -/
def emptyChat : ChatState :=
  { conversations := [], messages := [], conversationCache := [], nextId := 0 }

/-- C5's failing input: one conversation (id 0) with 21 persisted
messages whose contents are `"1"` … `"21"` in creation order, and a cold
cache. -/
def c5State : ChatState :=
  { conversations := [{ id := 0, studentId := "s", title := "t", isActive := true,
                        lastMessageAt := 21, messageCount := 21 }],
    messages := (List.range 21).map (fun i =>
      { id := i + 1, conversationId := 0, role := .user,
        content := toString (i + 1), metadata := none, createdAt := i + 1 }),
    conversationCache := [],
    nextId := 22 }

/-- Tie-break counterexample chunk stored first: the larger `chunkIndex`. -/
def cexChunkA : KnowledgeChunk :=
  { content := "A", courseId := "c", embedding := [1], chunkIndex := 1,
    metadata := none }

/-- Tie-break counterexample chunk stored second: the smaller `chunkIndex`. -/
def cexChunkB : KnowledgeChunk :=
  { content := "B", courseId := "c", embedding := [1], chunkIndex := 0,
    metadata := none }

/-- A provider oracle that is rate-limited once and then succeeds. -/
def w4results : Nat → CallResult String :=
  fun i => if i = 0 then .failure (some 429) else .success "ok"

/- ======================================================================
   Helper lemmas about the cache association list.
   ====================================================================== -/

theorem find?_filter_ne (l : List (Nat × List HistoryEntry)) (j k : Nat)
    (h : j ≠ k) :
    (l.filter (fun p => p.1 != k)).find? (fun p => p.1 == j)
      = l.find? (fun p => p.1 == j) := by
  induction l with
  | nil => rfl
  | cons p l ih =>
    by_cases hk : p.1 = k
    · simp [List.filter_cons, List.find?_cons, hk, Ne.symm h, ih]
    · by_cases hj : p.1 = j
      · simp [List.filter_cons, List.find?_cons, hk, hj, h]
      · simp [List.filter_cons, List.find?_cons, hk, hj, ih]

theorem find?_filter_self (l : List (Nat × List HistoryEntry)) (k : Nat) :
    (l.filter (fun p => p.1 != k)).find? (fun p => p.1 == k) = none := by
  induction l with
  | nil => rfl
  | cons p l ih =>
    by_cases hk : p.1 = k
    · simp [List.filter_cons, hk, ih]
    · simp [List.filter_cons, List.find?_cons, hk, ih]

theorem cacheLookup_set_ne (cache : List (Nat × List HistoryEntry)) (k j : Nat)
    (v : List HistoryEntry) (h : j ≠ k) :
    cacheLookup (cacheSet cache k v) j = cacheLookup cache j := by
  simp [cacheLookup, cacheSet, List.find?_cons, Ne.symm h,
    find?_filter_ne cache j k h]

theorem cacheLookup_set_self (cache : List (Nat × List HistoryEntry)) (k : Nat)
    (v : List HistoryEntry) :
    cacheLookup (cacheSet cache k v) k = some v := by
  simp [cacheLookup, cacheSet, List.find?_cons]

theorem cacheLookup_delete_ne (cache : List (Nat × List HistoryEntry)) (k j : Nat)
    (h : j ≠ k) :
    cacheLookup (cacheDelete cache k) j = cacheLookup cache j := by
  simp [cacheLookup, cacheDelete, find?_filter_ne cache j k h]

theorem cacheLookup_delete_self (cache : List (Nat × List HistoryEntry)) (k : Nat) :
    cacheLookup (cacheDelete cache k) k = none := by
  simp [cacheLookup, cacheDelete, find?_filter_self cache k]

theorem cacheLookup_none_of_fresh (cache : List (Nat × List HistoryEntry)) (k : Nat)
    (h : ∀ p ∈ cache, p.1 ≠ k) : cacheLookup cache k = none := by
  induction cache with
  | nil => rfl
  | cons p l ih =>
    have hp : (p.1 == k) = false := by simpa using h p (by simp)
    have ih2 := ih (fun q hq => h q (by simp [hq]))
    simp only [cacheLookup] at ih2
    simp only [cacheLookup, List.find?_cons, hp]
    exact ih2

/- ======================================================================
   Claim C1 — cache reset / invalidation isolation.
   ====================================================================== -/

/-- C1: for distinct conversation identities, a cache reset addressed to
one of them — `startNewConversation` installing a fresh entry for the new
conversation, or `deleteHistory` removing an entry — leaves every other
identity's cached entry unchanged; and the entry `startNewConversation`
installs is the freshly allocated seed window (one system turn when
`initialContext` is given, else empty), not a truncation of any shared
sequence. -/
theorem cache_reset_isolation (st : ChatState) (studentId : String)
    (initialContext : Option String) (delId b : Nat) :
    (b ≠ (startNewConversation st studentId initialContext).1.id →
      cacheLookup
        (startNewConversation st studentId initialContext).2.conversationCache b
        = cacheLookup st.conversationCache b) ∧
    (cacheLookup
        (startNewConversation st studentId initialContext).2.conversationCache
        (startNewConversation st studentId initialContext).1.id
      = some (match initialContext with
              | some ctx => [{ role := .system, content := ctx }]
              | none => [])) ∧
    (b ≠ delId →
      cacheLookup (deleteHistory st studentId delId).2.conversationCache b
        = cacheLookup st.conversationCache b) := by
  refine ⟨?_, ?_, ?_⟩
  · intro hb
    simp only [startNewConversation, createConversation] at hb ⊢
    exact cacheLookup_set_ne _ _ _ _ hb
  · simp only [startNewConversation, createConversation]
    exact cacheLookup_set_self _ _ _
  · intro hb
    unfold deleteHistory
    cases hfind : st.conversations.find?
        (fun c => c.id == delId && c.studentId == studentId) with
    | none => rfl
    | some conv =>
      simp only [hfind]
      exact cacheLookup_delete_ne _ _ _ hb

/-- C1 witness: in `wState1` (entries cached for ids 0 and 1), creating a
new conversation and deleting conversation 0 both leave id 1's entry
untouched. -/
theorem cache_reset_isolation_witness :
    cacheLookup (startNewConversation wState1 "s" none).2.conversationCache 1
        = cacheLookup wState1.conversationCache 1 ∧
    cacheLookup (deleteHistory wState1 "s" 0).2.conversationCache 1
        = cacheLookup wState1.conversationCache 1 :=
  ⟨(cache_reset_isolation wState1 "s" none 0 1).1 (by decide),
   (cache_reset_isolation wState1 "s" none 0 1).2.2 (by decide)⟩

/- ======================================================================
   Claim C2 — sendMessage without a conversation id.
   ====================================================================== -/

/-- The fresh user message `sendMessage` persists when the conversation is
created at allocator value `n`. -/
def freshUserMsg (n : Nat) (message : String) : StoredMessage :=
  { id := n + 1, conversationId := n, role := .user, content := message,
    metadata := none, createdAt := n + 1 }

/-- The fresh assistant message `sendMessage` persists in that run. -/
def freshAssistantMsg (n : Nat) (resp : AiResponse) : StoredMessage :=
  { id := n + 1 + 1, conversationId := n, role := .assistant,
    content := resp.content,
    metadata := some { tokensUsed := resp.tokensUsed, model := resp.model },
    createdAt := n + 1 + 1 }

/-- C2: `sendMessage` with no conversation id and a successful generation
creates a fresh conversation, appends exactly the user message (content =
the input) and the assistant message (carrying the generation metadata) to
the log, and leaves the new conversation's `messageCount` two above the
value it was created with. -/
theorem sendMessage_creates_conversation (st : ChatState) (studentId message : String)
    (search : Except String (List SearchResult)) (resp : AiResponse)
    (hwf : WFChat st) :
    ∃ result st1,
      sendMessage st studentId message none search (fun _ _ => .ok resp)
        = .ok (result, st1) ∧
      (∀ c ∈ st.conversations, c.id ≠ result.conversationId) ∧
      (∃ conv ∈ st1.conversations, conv.id = result.conversationId ∧
        conv.studentId = studentId ∧
        conv.messageCount = (createConversation st studentId).1.messageCount + 2) ∧
      st1.messages = st.messages ++ [result.userMessage, result.assistantMessage] ∧
      result.userMessage.role = Role.user ∧
      result.userMessage.content = message ∧
      result.userMessage.conversationId = result.conversationId ∧
      result.assistantMessage.role = Role.assistant ∧
      result.assistantMessage.content = resp.content ∧
      result.assistantMessage.conversationId = result.conversationId ∧
      result.assistantMessage.metadata
        = some { tokensUsed := resp.tokensUsed, model := resp.model } ∧
      st1.messages.filter (fun m => m.conversationId == result.conversationId &&
          decide (m.role = Role.user)) = [result.userMessage] ∧
      st1.messages.filter (fun m => m.conversationId == result.conversationId &&
          decide (m.role = Role.assistant)) = [result.assistantMessage] := by
  have hcache : cacheLookup st.conversationCache st.nextId = none :=
    cacheLookup_none_of_fresh _ _ (fun p hp => Nat.ne_of_lt (hwf.2.2 p hp))
  have hmsgs0 : st.messages.filter (fun m => m.conversationId == st.nextId) = [] := by
    rw [List.filter_eq_nil_iff]
    intro m hm
    simp [Nat.ne_of_lt (hwf.2.1 m hm).2]
  have hmsgs : ∀ q : StoredMessage → Bool,
      st.messages.filter (fun m => m.conversationId == st.nextId && q m) = [] := by
    intro q
    rw [List.filter_eq_nil_iff]
    intro m hm
    simp [Nat.ne_of_lt (hwf.2.1 m hm).2]
  have heq : sendMessage st studentId message none search (fun _ _ => .ok resp)
      = .ok
        (⟨st.nextId, freshUserMsg st.nextId message, freshAssistantMsg st.nextId resp⟩,
         ⟨(st.conversations.map (fun c => if c.id = st.nextId then
              { c with lastMessageAt := st.nextId + 1 + 1 + 1,
                       messageCount := c.messageCount + 2 }
              else c)) ++
             [({ id := st.nextId, studentId := studentId,
                 title := "Nueva conversación", isActive := true,
                 lastMessageAt := st.nextId + 1 + 1 + 1,
                 messageCount := 2 } : Conversation)],
           (st.messages ++ [freshUserMsg st.nextId message]) ++
             [freshAssistantMsg st.nextId resp],
           cacheSet st.conversationCache st.nextId
             [({ role := Role.user, content := message } : HistoryEntry)],
           st.nextId + 1 + 1 + 1⟩) := by
    simp only [sendMessage, findConversation, createConversation, createMessage,
      getConversationHistory, messagesOf, bumpConversation, hcache]
    simp [List.filter_append, hmsgs0, freshUserMsg, freshAssistantMsg]
  refine ⟨_, _, heq, fun c hc => Nat.ne_of_lt (hwf.1 c hc),
    ⟨({ id := st.nextId, studentId := studentId, title := "Nueva conversación",
        isActive := true, lastMessageAt := st.nextId + 1 + 1 + 1,
        messageCount := 2 } : Conversation), by simp, rfl, rfl, rfl⟩,
    by simp, rfl, rfl, rfl, rfl, rfl, rfl, rfl, ?_, ?_⟩
  · simp [List.filter_append, hmsgs, freshUserMsg, freshAssistantMsg]
  · simp [List.filter_append, hmsgs, freshUserMsg, freshAssistantMsg]

/-- C2 witness: the theorem applied to the empty store with message
`"Hola"` and a concrete successful generation. -/
theorem sendMessage_creates_conversation_witness :
    WFChat emptyChat ∧
    (∃ result st1,
      sendMessage emptyChat "S" "Hola" none (.ok [])
          (fun _ _ => .ok ⟨"ok", some 5, some "gpt-4"⟩)
        = .ok (result, st1) ∧
      (∀ c ∈ emptyChat.conversations, c.id ≠ result.conversationId) ∧
      (∃ conv ∈ st1.conversations, conv.id = result.conversationId ∧
        conv.studentId = "S" ∧
        conv.messageCount = (createConversation emptyChat "S").1.messageCount + 2) ∧
      st1.messages = emptyChat.messages ++
        [result.userMessage, result.assistantMessage] ∧
      result.userMessage.role = Role.user ∧
      result.userMessage.content = "Hola" ∧
      result.userMessage.conversationId = result.conversationId ∧
      result.assistantMessage.role = Role.assistant ∧
      result.assistantMessage.content = (⟨"ok", some 5, some "gpt-4"⟩ : AiResponse).content ∧
      result.assistantMessage.conversationId = result.conversationId ∧
      result.assistantMessage.metadata = some { tokensUsed := some 5, model := some "gpt-4" } ∧
      st1.messages.filter (fun m => m.conversationId == result.conversationId &&
          decide (m.role = Role.user)) = [result.userMessage] ∧
      st1.messages.filter (fun m => m.conversationId == result.conversationId &&
          decide (m.role = Role.assistant)) = [result.assistantMessage]) :=
  ⟨by decide,
   sendMessage_creates_conversation emptyChat "S" "Hola" (.ok [])
     ⟨"ok", some 5, some "gpt-4"⟩ (by decide)⟩

/- ======================================================================
   Claim C3 — streaming wire protocol.
   ====================================================================== -/

theorem getConversationHistory_messages (st : ChatState) (cid : Nat) :
    (getConversationHistory st cid).2.messages = st.messages := by
  unfold getConversationHistory
  split <;> rfl

/-- C3: every streamed reply begins with a `conversationId` frame and ends
with `{done, messageId}` or `{error}`; when the fragment generator raises
after yielding `fragments`, the wire carries exactly the conversation
frame, one token frame per already-yielded fragment (nothing retracted),
and a terminal error frame, and the run persists no assistant message. -/
theorem streaming_wire_protocol (st : ChatState) (studentId message : String)
    (conversationId : Option Nat) (search : Except String (List SearchResult))
    (fragments : List String) (failure : Option String) :
    (∃ cid rest, streamMessage st studentId message conversationId search
        (fun _ _ => (fragments, failure)) = Frame.conversationId cid :: rest) ∧
    ((∃ mid, (streamMessage st studentId message conversationId search
        (fun _ _ => (fragments, failure))).getLast? = some (Frame.done mid)) ∨
     (∃ e, (streamMessage st studentId message conversationId search
        (fun _ _ => (fragments, failure))).getLast? = some (Frame.error e))) ∧
    (∀ e, failure = some e →
      (∃ cid, streamMessage st studentId message conversationId search
          (fun _ _ => (fragments, failure))
        = Frame.conversationId cid :: (fragments.map Frame.token ++ [Frame.error e])) ∧
      (∀ m ∈ (streamResponse st studentId message conversationId search
          (fun _ _ => (fragments, failure))).2.1.messages,
        m.role = Role.assistant → m ∈ st.messages)) ∧
    (failure = none →
      ∃ cid mid, streamMessage st studentId message conversationId search
          (fun _ _ => (fragments, failure))
        = Frame.conversationId cid :: (fragments.map Frame.token ++ [Frame.done mid])) := by
  obtain ⟨conv, st1, hres, hmsgs1⟩ : ∃ conv st1,
      (match findConversation st conversationId with
       | some c => (c, st)
       | none => createConversation st studentId) = (conv, st1) ∧
      st1.messages = st.messages := by
    cases findConversation st conversationId <;> exact ⟨_, _, rfl, rfl⟩
  cases failure with
  | none =>
    have hw : streamMessage st studentId message conversationId search
        (fun _ _ => (fragments, none))
        = Frame.conversationId conv.id :: (fragments.map Frame.token ++
            [Frame.done (getConversationHistory
              (createMessage st1 conv.id .user message none).2 conv.id).2.nextId]) := by
      simp only [streamMessage, streamResponse]
      rw [hres]
      rfl
    refine ⟨⟨conv.id, _, hw⟩, ?_, ?_, ?_⟩
    · refine Or.inl ⟨(getConversationHistory
        (createMessage st1 conv.id .user message none).2 conv.id).2.nextId, ?_⟩
      rw [hw, ← List.cons_append, List.getLast?_concat]
    · intro e he
      exact absurd he (by simp)
    · intro _
      exact ⟨conv.id, _, hw⟩
  | some e =>
    have hw : streamMessage st studentId message conversationId search
        (fun _ _ => (fragments, some e))
        = (Frame.conversationId conv.id :: fragments.map Frame.token)
            ++ [Frame.error e] := by
      simp only [streamMessage, streamResponse]
      rw [hres]
    have hw2 : streamMessage st studentId message conversationId search
        (fun _ _ => (fragments, some e))
        = Frame.conversationId conv.id :: (fragments.map Frame.token
            ++ [Frame.error e]) := by
      rw [hw, List.cons_append]
    refine ⟨⟨conv.id, _, hw2⟩, Or.inr ⟨e, ?_⟩, ?_, ?_⟩
    · rw [hw, List.getLast?_concat]
    · intro e2 he2
      have he3 : e = e2 := Option.some.inj he2
      rw [← he3]
      refine ⟨⟨conv.id, hw2⟩, ?_⟩
      intro m hm hrole
      have h1 : (streamResponse st studentId message conversationId search
          (fun _ _ => (fragments, some e))).2.1.messages
          = (createMessage st1 conv.id .user message none).2.messages := by
        simp only [streamResponse]
        rw [hres]
        rw [getConversationHistory_messages]
      rw [h1] at hm
      have hmem : m ∈ st1.messages ++
          [(createMessage st1 conv.id .user message none).1] := by
        simpa [createMessage] using hm
      rw [hmsgs1] at hmem
      rcases List.mem_append.mp hmem with h | h
      · exact h
      · exfalso
        have hrole2 : m.role = Role.user := by
          rw [List.mem_singleton.mp h]
          rfl
        rw [hrole2] at hrole
        exact absurd hrole (by decide)
    · intro hnone
      exact absurd hnone (by simp)

/-- C3 witness: a stream over the empty store that yields two fragments
and then raises `"boom"` produces the conversation frame, both token
frames, and the terminal error frame, and persists no assistant message. -/
theorem streaming_wire_protocol_witness :
    (∃ cid, streamMessage emptyChat "S" "Hola" none (.ok [])
        (fun _ _ => (["a", "b"], some "boom"))
      = Frame.conversationId cid ::
          (["a", "b"].map Frame.token ++ [Frame.error "boom"])) ∧
    (∀ m ∈ (streamResponse emptyChat "S" "Hola" none (.ok [])
        (fun _ _ => (["a", "b"], some "boom"))).2.1.messages,
      m.role = Role.assistant → m ∈ emptyChat.messages) :=
  (streaming_wire_protocol emptyChat "S" "Hola" none (.ok [])
    ["a", "b"] (some "boom")).2.2.1 "boom" rfl

/- ======================================================================
   Claim C10 — sendMessage leaves an existing cached window unchanged.
   ====================================================================== -/

/-- C10: when a conversation's context window is already cached, a
successful `sendMessage` addressed to it leaves the cached entry exactly
as it was — the newly persisted user and assistant messages are not
appended to it — and a subsequent context load returns that stale cached
window. -/
theorem sendMessage_cached_window_frame (st : ChatState)
    (studentId message : String) (cid : Nat) (conv : Conversation)
    (window : List HistoryEntry) (search : Except String (List SearchResult))
    (resp : AiResponse)
    (hfind : findConversation st (some cid) = some conv)
    (hcache : cacheLookup st.conversationCache cid = some window) :
    ∃ result st1,
      sendMessage st studentId message (some cid) search (fun _ _ => .ok resp)
        = .ok (result, st1) ∧
      cacheLookup st1.conversationCache cid = some window ∧
      (getConversationHistory st1 cid).1 = window := by
  have hid : conv.id = cid := by
    have := List.find?_some hfind
    simpa using this
  have hcache2 : cacheLookup st.conversationCache conv.id = some window := by
    rw [hid]; exact hcache
  have heq : sendMessage st studentId message (some cid) search (fun _ _ => .ok resp)
      = .ok
        (⟨conv.id,
          ⟨st.nextId, conv.id, .user, message, none, st.nextId⟩,
          ⟨st.nextId + 1, conv.id, .assistant, resp.content,
            some ⟨resp.tokensUsed, resp.model⟩, st.nextId + 1⟩⟩,
         ⟨st.conversations.map (fun c => if c.id = conv.id then
             { c with lastMessageAt := st.nextId + 1 + 1,
                      messageCount := c.messageCount + 2 } else c),
          (st.messages ++ [⟨st.nextId, conv.id, .user, message, none, st.nextId⟩]) ++
            [⟨st.nextId + 1, conv.id, .assistant, resp.content,
              some ⟨resp.tokensUsed, resp.model⟩, st.nextId + 1⟩],
          st.conversationCache,
          st.nextId + 1 + 1⟩) := by
    simp only [sendMessage, hfind, createMessage, getConversationHistory,
      messagesOf, bumpConversation, hcache2]
    simp
  refine ⟨_, _, heq, hcache, ?_⟩
  simp [getConversationHistory, hcache]

/-- C10 witness: in `wState2` (conversation 0 cached with one system
turn), a successful `sendMessage` leaves the cached window untouched and
a later load still returns it. -/
theorem sendMessage_cached_window_frame_witness :
    ∃ result st1,
      sendMessage wState2 "s" "Hola" (some 0) (.ok [])
          (fun _ _ => .ok ⟨"ok", none, none⟩)
        = .ok (result, st1) ∧
      cacheLookup st1.conversationCache 0
        = some [{ role := .system, content := "ctx" }] ∧
      (getConversationHistory st1 0).1 = [{ role := .system, content := "ctx" }] :=
  sendMessage_cached_window_frame wState2 "s" "Hola" 0
    { id := 0, studentId := "s", title := "t", isActive := true,
      lastMessageAt := 0, messageCount := 2 }
    [{ role := .system, content := "ctx" }] (.ok []) ⟨"ok", none, none⟩
    (by decide) (by decide)

/- ======================================================================
   Claim C5 — context window reconstruction on a cache miss.
   ====================================================================== -/

/-- C5 (code bug): on a cache miss for a conversation with 21 persisted
messages (`"1"` … `"21"` in creation order), `getConversationHistory`
queries `.sort({createdAt: 1}).limit(20)` and therefore loads the 20
OLDEST messages `"1"` … `"20"`, dropping the most recent message `"21"` —
although the claim, the spec, and the code's own comment ("Últimos 20
mensajes para contexto") call for the 20 most recent (`"2"` … `"21"`). -/
theorem history_window_takes_oldest :
    (messagesOf c5State 0).length = 21 ∧
    ((getConversationHistory c5State 0).1).map (fun h => h.content)
      = (List.range 20).map (fun i => toString (i + 1)) ∧
    "21" ∉ ((getConversationHistory c5State 0).1).map (fun h => h.content) ∧
    (messagesOf c5State 0).map (fun m => m.content)
      = (List.range 21).map (fun i => toString (i + 1)) := by
  refine ⟨by decide, by decide, by decide, by decide⟩

/- ======================================================================
   Claim C6 — retrieval failure is recovered locally.
   ====================================================================== -/

/-- C6: an embedding failure inside `searchSimilar` yields `ok []` rather
than an error, and a failed retrieval call inside `sendMessage` or
`streamResponse` leaves the operation behaving exactly as if retrieval
had returned no results — the failure never reaches the caller. -/
theorem retrieval_failure_recovered (e : String) (db : List KnowledgeChunk)
    (courseId : Option String) (limitOpt : Option Nat) (minScoreOpt : Option ℝ)
    (st : ChatState) (studentId message : String) (conversationId : Option Nat)
    (gen : List HistoryEntry → List String → Except String AiResponse)
    (genStream : List HistoryEntry → List String → List String × Option String) :
    searchSimilar true (.error e) db courseId limitOpt minScoreOpt = .ok [] ∧
    sendMessage st studentId message conversationId (.error e) gen
      = sendMessage st studentId message conversationId (.ok []) gen ∧
    streamResponse st studentId message conversationId (.error e) genStream
      = streamResponse st studentId message conversationId (.ok []) genStream ∧
    streamMessage st studentId message conversationId (.error e) genStream
      = streamMessage st studentId message conversationId (.ok []) genStream :=
  ⟨rfl, rfl, rfl, rfl⟩

/- ======================================================================
   Claim C4 — rate-limit retry policy.
   ====================================================================== -/

theorem retryGo_eq {α : Type} (results : Nat → CallResult α)
    (attempt remaining : Nat) :
    retryGo results attempt remaining
      = match results attempt with
        | .success v => .ok v
        | .failure status =>
          if status = some 429 then
            match remaining with
            | 0 => .error ⟨status⟩
            | r + 1 => retryGo results (attempt + 1) r
          else .error ⟨status⟩ := by
  conv_lhs => unfold retryGo

theorem retryGo_ok_after {α : Type} (results : Nat → CallResult α) :
    ∀ (k attempt remaining : Nat) (v : α),
      (∀ i < k, results (attempt + i) = .failure (some 429)) →
      results (attempt + k) = .success v →
      k ≤ remaining →
      retryGo results attempt remaining = .ok v := by
  intro k
  induction k with
  | zero =>
    intro attempt remaining v hfail hs _
    rw [Nat.add_zero] at hs
    rw [retryGo_eq, hs]
  | succ k ih =>
    intro attempt remaining v hfail hs hk
    have h0 : results attempt = .failure (some 429) := by
      have := hfail 0 (Nat.succ_pos k)
      rwa [Nat.add_zero] at this
    rcases remaining with _ | r
    · omega
    · rw [retryGo_eq, h0]
      simp only [if_pos rfl]
      refine ih (attempt + 1) r v ?_ ?_ (by omega)
      · intro i hi
        have := hfail (i + 1) (by omega)
        rwa [show attempt + (i + 1) = attempt + 1 + i by omega] at this
      · rwa [show attempt + 1 + k = attempt + (k + 1) by omega]

theorem retryGo_all429 {α : Type} (results : Nat → CallResult α) :
    ∀ (remaining attempt : Nat),
      (∀ i ≤ remaining, results (attempt + i) = .failure (some 429)) →
      retryGo results attempt remaining = .error ⟨some 429⟩ := by
  intro remaining
  induction remaining with
  | zero =>
    intro attempt h
    have h0 : results attempt = .failure (some 429) := by
      have := h 0 (Nat.le_refl 0)
      rwa [Nat.add_zero] at this
    rw [retryGo_eq, h0]
    simp
  | succ r ih =>
    intro attempt h
    have h0 : results attempt = .failure (some 429) := by
      have := h 0 (Nat.zero_le _)
      rwa [Nat.add_zero] at this
    rw [retryGo_eq, h0]
    simp only [if_pos rfl]
    refine ih (attempt + 1) ?_
    intro i hi
    have := h (i + 1) (by omega)
    rwa [show attempt + (i + 1) = attempt + 1 + i by omega] at this

/-- C4 (code bug at the queue-overflow path): transient 429s followed by
a success within the attempt bound return the successful value with no
visible error; 429 on every attempt up to the bound surfaces
`RateLimited`; a non-429 failure is thrown immediately, without
retrying.  The claim's queue-capacity conjunct FAILS on the code: a
Bottleneck queue drop rejects the un-awaited scheduled promise with a
status-less `BottleneckError` (the overflow-to-429 catch in
`withRateLimitAndRetry` is dead code), so `AiService.response` maps it
to `Unavailable`, not to the `RateLimited` that the dead mapping code
and the spec intend. -/
theorem generation_retry_policy {α : Type} (results : Nat → CallResult α)
    (maxRetries k : Nat) (v : α) (s : Option Nat) :
    ((∀ i < k, results i = .failure (some 429)) → results k = .success v →
      k ≤ maxRetries →
      withRateLimitAndRetry true results maxRetries = .ok v) ∧
    ((∀ i < k, results i = .failure (some 429)) → results k = .success v →
      k ≤ 5 → aiServiceResponse true results = .ok v) ∧
    ((∀ i ≤ 5, results i = .failure (some 429)) →
      aiServiceResponse true results = .error .rateLimited) ∧
    (aiServiceResponse false results = .error .unavailable ∧
      aiServiceResponse false results ≠ .error .rateLimited) ∧
    (s ≠ some 429 → results 0 = .failure s →
      withRateLimitAndRetry true results maxRetries = .error ⟨s⟩) := by
  have hok : ∀ (mr : Nat), (∀ i < k, results i = .failure (some 429)) →
      results k = .success v → k ≤ mr →
      withRateLimitAndRetry true results mr = .ok v := by
    intro mr hfail hs hk
    simp only [withRateLimitAndRetry, if_pos rfl]
    exact retryGo_ok_after results k 0 mr v
      (fun i hi => by simpa using hfail i hi) (by simpa using hs) hk
  have hoverflow : aiServiceResponse false results = .error .unavailable := by
    simp [aiServiceResponse, withRateLimitAndRetry]
  refine ⟨hok maxRetries, ?_, ?_, ⟨hoverflow, ?_⟩, ?_⟩
  · intro hfail hs hk
    simp only [aiServiceResponse, hok 5 hfail hs hk]
  · intro hall
    have h429 : withRateLimitAndRetry true results 5 = .error ⟨some 429⟩ := by
      simp only [withRateLimitAndRetry, if_pos rfl]
      exact retryGo_all429 results 5 0 (fun i hi => by simpa using hall i hi)
    simp [aiServiceResponse, h429]
  · rw [hoverflow]
    intro h
    exact absurd (Except.error.inj h) (by decide)
  · intro hs h0
    simp only [withRateLimitAndRetry, if_pos rfl]
    rw [retryGo_eq, h0]
    simp [hs]

/-- C4 witness: one 429 then success returns `ok`; six straight 429s
surface `RateLimited`; a scheduler queue rejection surfaces
`Unavailable` (the divergence from the claim); a 500 fails at once. -/
theorem generation_retry_policy_witness :
    aiServiceResponse true w4results = .ok "ok" ∧
    aiServiceResponse true (fun _ => (CallResult.failure (some 429) : CallResult String))
      = .error .rateLimited ∧
    aiServiceResponse false w4results = .error .unavailable ∧
    withRateLimitAndRetry true
      (fun _ => (CallResult.failure (some 500) : CallResult String)) 5
      = .error ⟨some 500⟩ :=
  ⟨(generation_retry_policy w4results 5 1 "ok" none).2.1
      (by decide) (by decide) (by decide),
   (generation_retry_policy (fun _ => (CallResult.failure (some 429) : CallResult String))
      5 0 "x" none).2.2.1 (by decide),
   (generation_retry_policy w4results 5 0 "x" none).2.2.2.1.1,
   (generation_retry_policy (fun _ => (CallResult.failure (some 500) : CallResult String))
      5 0 "x" (some 500)).2.2.2.2 (by decide) (by decide)⟩

/- ======================================================================
   Claim C9 — cosineSimilarity.
   ====================================================================== -/

theorem normSq_nonneg (a : List ℝ) : 0 ≤ normSq a := by
  unfold normSq
  apply List.sum_nonneg
  intro x hx
  obtain ⟨y, _, rfl⟩ := List.mem_map.mp hx
  exact mul_self_nonneg y

theorem dotList_self (v : List ℝ) : dotList v v = normSq v := by
  induction v with
  | nil => rfl
  | cons x l ih =>
    simp only [dotList, normSq, List.zipWith_cons_cons, List.map_cons,
      List.sum_cons] at ih ⊢
    rw [ih]

theorem normSq_pos (v : List ℝ) (h : ∃ x ∈ v, x ≠ 0) : 0 < normSq v := by
  induction v with
  | nil => simp at h
  | cons y l ih =>
    rcases h with ⟨x, hx, hx0⟩
    simp only [normSq, List.map_cons, List.sum_cons]
    rcases List.mem_cons.mp hx with rfl | hxl
    · exact add_pos_of_pos_of_nonneg (mul_self_pos.mpr hx0) (normSq_nonneg l)
    · exact add_pos_of_nonneg_of_pos (mul_self_nonneg y) (ih ⟨x, hxl, hx0⟩)

/-- C9: for equally long vectors, `cosineSimilarity` returns
`dot / (‖a‖·‖b‖)` except that it returns 0 whenever either Euclidean norm
is 0 (never dividing by zero); for vectors of differing length it fails
fast with the dimension-mismatch error; and on any vector with a nonzero
component it returns exactly 1 against itself. -/
theorem cosineSimilarity_spec (a b v : List ℝ) :
    (a.length = b.length →
      cosineSimilarity a b = .ok
        (if normSq a = 0 ∨ normSq b = 0 then 0
         else dotList a b / (Real.sqrt (normSq a) * Real.sqrt (normSq b)))) ∧
    (a.length ≠ b.length →
      cosineSimilarity a b = .error "Vectors must have the same length") ∧
    ((∃ x ∈ v, x ≠ 0) → cosineSimilarity v v = .ok 1) := by
  refine ⟨?_, ?_, ?_⟩
  · intro hlen
    have hcond : (Real.sqrt (normSq a) * Real.sqrt (normSq b) = 0)
        ↔ (normSq a = 0 ∨ normSq b = 0) := by
      rw [mul_eq_zero, Real.sqrt_eq_zero (normSq_nonneg a),
        Real.sqrt_eq_zero (normSq_nonneg b)]
    simp only [cosineSimilarity, hlen, ne_eq, not_true_eq_false, if_false]
    exact congrArg Except.ok (if_congr hcond rfl rfl)
  · intro hne
    simp [cosineSimilarity, hne]
  · intro hv
    have hpos : 0 < normSq v := normSq_pos v hv
    have hmag : Real.sqrt (normSq v) * Real.sqrt (normSq v) = normSq v :=
      Real.mul_self_sqrt (normSq_nonneg v)
    simp only [cosineSimilarity, ne_eq, not_true_eq_false, if_false]
    rw [hmag, if_neg hpos.ne', dotList_self, div_self hpos.ne']

/-- C9 witness: `[3, 4]` against itself gives exactly 1; `[1, 2]` against
`[1]` is a dimension mismatch. -/
theorem cosineSimilarity_spec_witness :
    cosineSimilarity [(3 : ℝ), 4] [(3 : ℝ), 4] = .ok 1 ∧
    cosineSimilarity [(1 : ℝ), 2] [(1 : ℝ)]
      = .error "Vectors must have the same length" :=
  ⟨(cosineSimilarity_spec [(3 : ℝ), 4] [(3 : ℝ), 4] [(3 : ℝ), 4]).2.2
      ⟨3, by simp, by norm_num⟩,
   (cosineSimilarity_spec [(1 : ℝ), 2] [(1 : ℝ)] []).2.1 (by simp)⟩

/- ======================================================================
   Claim C7 — searchSimilar ranking.
   ====================================================================== -/

theorem insertByScore_perm (x : ScoredChunk) (l : List ScoredChunk) :
    (insertByScore x l).Perm (x :: l) := by
  induction l with
  | nil => rfl
  | cons y ys ih =>
    unfold insertByScore
    split
    · exact ((ih.cons y).trans (List.Perm.swap x y ys))
    · exact List.Perm.refl _

theorem insertByScore_sorted (x : ScoredChunk) (l : List ScoredChunk)
    (h : l.Pairwise (fun p q => q.score ≤ p.score)) :
    (insertByScore x l).Pairwise (fun p q => q.score ≤ p.score) := by
  induction l with
  | nil => simp [insertByScore]
  | cons y ys ih =>
    unfold insertByScore
    split
    · rename_i hlt
      rw [List.pairwise_cons] at h ⊢
      refine ⟨?_, ih h.2⟩
      intro z hz
      rcases List.mem_cons.mp ((insertByScore_perm x ys).mem_iff.mp hz)
        with rfl | hzys
      · exact le_of_lt hlt
      · exact h.1 z hzys
    · rename_i hge
      rw [List.pairwise_cons]
      refine ⟨?_, h⟩
      intro z hz
      rcases List.mem_cons.mp hz with rfl | hzys
      · exact le_of_not_lt hge
      · exact le_trans ((List.pairwise_cons.mp h).1 z hzys) (le_of_not_lt hge)

theorem sortByScoreDesc_perm (l : List ScoredChunk) :
    (sortByScoreDesc l).Perm l := by
  induction l with
  | nil => rfl
  | cons x xs ih => exact (insertByScore_perm x (sortByScoreDesc xs)).trans (ih.cons x)

theorem sortByScoreDesc_sorted (l : List ScoredChunk) :
    (sortByScoreDesc l).Pairwise (fun p q => q.score ≤ p.score) := by
  induction l with
  | nil => simp [sortByScoreDesc]
  | cons x xs ih => exact insertByScore_sorted x _ ih

theorem filterByScore_mem (m : ℝ) (l : List ScoredChunk) :
    ∀ x ∈ filterByScore m l, m ≤ x.score ∧ x ∈ l := by
  induction l with
  | nil => simp [filterByScore]
  | cons y ys ih =>
    unfold filterByScore
    split
    · rename_i hy
      intro x hx
      rcases List.mem_cons.mp hx with rfl | hxs
      · exact ⟨hy, List.mem_cons_self _ _⟩
      · exact ⟨(ih x hxs).1, List.mem_cons_of_mem y (ih x hxs).2⟩
    · intro x hx
      exact ⟨(ih x hx).1, List.mem_cons_of_mem y (ih x hx).2⟩

theorem scoreChunks_mem (q : List ℝ) (l : List KnowledgeChunk)
    (scored : List ScoredChunk) (h : scoreChunks q l = .ok scored) :
    ∀ sc ∈ scored, sc.toKnowledgeChunk ∈ l := by
  induction l generalizing scored with
  | nil =>
    obtain rfl : scored = [] := by
      simpa [scoreChunks] using h.symm
    simp
  | cons c cs ih =>
    unfold scoreChunks at h
    split at h
    · exact absurd h (by simp)
    · rename_i s hs
      split at h
      · exact absurd h (by simp)
      · rename_i rest hrest
        obtain rfl : scored = ⟨c, s⟩ :: rest := (Except.ok.inj h).symm
        intro sc hsc
        rcases List.mem_cons.mp hsc with rfl | hsc2
        · exact List.mem_cons_self _ _
        · exact List.mem_cons_of_mem c (ih rest hrest sc hsc2)

theorem searchRanked_ok (configured : Bool) (embedQuery : Except String (List ℝ))
    (db : List KnowledgeChunk) (courseId : Option String)
    (limitOpt : Option Nat) (minScoreOpt : Option ℝ)
    (ranked : List ScoredChunk)
    (h : searchRanked configured embedQuery db courseId limitOpt minScoreOpt
      = .ok ranked) :
    (∀ sc ∈ ranked, jsOrReal minScoreOpt 0.5 ≤ sc.score ∧
      sc.toKnowledgeChunk ∈ (match courseId with
        | some cid => db.filter (fun c : KnowledgeChunk => c.courseId == cid)
        | none => db)) ∧
    ranked.length ≤ jsOrNat limitOpt 3 ∧
    ranked.Pairwise (fun p q => q.score ≤ p.score) := by
  simp only [searchRanked] at h
  split at h
  · obtain rfl : ranked = [] := (Except.ok.inj h).symm
    simp
  · split at h
    · obtain rfl : ranked = [] := (Except.ok.inj h).symm
      simp
    · split at h
      · obtain rfl : ranked = [] := (Except.ok.inj h).symm
        simp
      · split at h
        · exact absurd h (by simp)
        · rename_i scored hscored
          obtain rfl : ranked
              = (sortByScoreDesc (filterByScore (jsOrReal minScoreOpt 0.5)
                  scored)).take (jsOrNat limitOpt 3) := (Except.ok.inj h).symm
          refine ⟨?_, ?_, ?_⟩
          · intro sc hsc
            have hsort : sc ∈ sortByScoreDesc (filterByScore
                (jsOrReal minScoreOpt 0.5) scored) := List.mem_of_mem_take hsc
            have hfil := (sortByScoreDesc_perm _).mem_iff.mp hsort
            have hkeep := filterByScore_mem _ _ sc hfil
            exact ⟨hkeep.1, scoreChunks_mem _ _ scored hscored sc hkeep.2⟩
          · rw [List.length_take]
            exact min_le_left _ _
          · exact (sortByScoreDesc_sorted _).sublist (List.take_sublist _ _)

theorem cosine_single_one : cosineSimilarity [(1 : ℝ)] [(1 : ℝ)] = .ok 1 := by
  norm_num [cosineSimilarity, normSq, dotList, Real.sqrt_one]

theorem searchRanked_cex_eval :
    searchRanked true (.ok [(1 : ℝ)]) [cexChunkA, cexChunkB] none none none
      = .ok [⟨cexChunkA, 1⟩, ⟨cexChunkB, 1⟩] := by
  norm_num [searchRanked, cexChunkA, cexChunkB, scoreChunks, cosine_single_one,
    jsOrReal, jsOrNat, filterByScore, sortByScoreDesc, insertByScore]

theorem searchSimilar_cex_eval :
    searchSimilar true (.ok [(1 : ℝ)]) [cexChunkA, cexChunkB] none none none
      = .ok [⟨"A", "c", 1, none⟩, ⟨"B", "c", 1, none⟩] := by
  unfold searchSimilar
  rw [searchRanked_cex_eval]
  simp [cexChunkA, cexChunkB]

theorem searchSimilar_single_eval :
    searchSimilar true (.ok [(1 : ℝ)]) [cexChunkA] none none none
      = .ok [⟨"A", "c", 1, none⟩] := by
  norm_num [searchSimilar, searchRanked, cexChunkA, scoreChunks, cosine_single_one,
    jsOrReal, jsOrNat, filterByScore, sortByScoreDesc, insertByScore]

/-- C7 (amended): every returned result scores at least the resolved
`minScore` (default 0.5), a `courseId` filter restricts results to that
course, at most the resolved `limit` (default 3) results are returned,
and results are sorted non-increasingly by score; equal scores keep the
candidates' store order (the comparator `b.score - a.score` has no
chunkIndex tie-break — see the counterexample). -/
theorem searchSimilar_ranking (configured : Bool) (embedQuery : Except String (List ℝ))
    (db : List KnowledgeChunk) (courseId : Option String)
    (limitOpt : Option Nat) (minScoreOpt : Option ℝ) (res : List SearchResult)
    (h : searchSimilar configured embedQuery db courseId limitOpt minScoreOpt
      = .ok res) :
    (∀ r ∈ res, jsOrReal minScoreOpt 0.5 ≤ r.score) ∧
    (∀ cid, courseId = some cid → ∀ r ∈ res, r.courseId = cid) ∧
    res.length ≤ jsOrNat limitOpt 3 ∧
    res.Pairwise (fun r1 r2 => r2.score ≤ r1.score) := by
  simp only [searchSimilar] at h
  split at h
  · exact absurd h (by simp)
  · rename_i ranked hranked
    obtain rfl : res = ranked.map (fun c =>
        { content := c.content, courseId := c.courseId, score := c.score,
          metadata := c.metadata }) := (Except.ok.inj h).symm
    obtain ⟨hmem, hlen, hsorted⟩ := searchRanked_ok _ _ _ _ _ _ _ hranked
    refine ⟨?_, ?_, ?_, ?_⟩
    · intro r hr
      obtain ⟨sc, hsc, rfl⟩ := List.mem_map.mp hr
      exact (hmem sc hsc).1
    · intro cid hcid r hr
      obtain ⟨sc, hsc, rfl⟩ := List.mem_map.mp hr
      have h2 := (hmem sc hsc).2
      rw [hcid] at h2
      simp only [List.mem_filter] at h2
      simpa using h2.2
    · simpa using hlen
    · rw [List.pairwise_map]
      exact hsorted

/-- C7 counterexample: with query embedding `[1]` and two stored chunks
with identical embeddings, stored with `chunkIndex` 1 before
`chunkIndex` 0, both score exactly 1 and the stable sort keeps store
order — the tie is NOT broken by ascending `chunkIndex`, so the ranking
predicate the claim states fails on the returned list. -/
theorem searchSimilar_tiebreak_counterexample :
    searchRanked true (.ok [(1 : ℝ)]) [cexChunkA, cexChunkB] none none none
      = .ok [⟨cexChunkA, 1⟩, ⟨cexChunkB, 1⟩] ∧
    searchSimilar true (.ok [(1 : ℝ)]) [cexChunkA, cexChunkB] none none none
      = .ok [⟨"A", "c", 1, none⟩, ⟨"B", "c", 1, none⟩] ∧
    (⟨cexChunkA, 1⟩ : ScoredChunk).score = (⟨cexChunkB, 1⟩ : ScoredChunk).score ∧
    (⟨cexChunkB, 1⟩ : ScoredChunk).chunkIndex
      < (⟨cexChunkA, 1⟩ : ScoredChunk).chunkIndex ∧
    ¬ ([(⟨cexChunkA, 1⟩ : ScoredChunk), (⟨cexChunkB, 1⟩ : ScoredChunk)].Pairwise
        (fun p q => q.score < p.score ∨
          (p.score = q.score ∧ p.chunkIndex < q.chunkIndex))) := by
  refine ⟨searchRanked_cex_eval, searchSimilar_cex_eval, rfl,
    by norm_num [cexChunkA, cexChunkB], ?_⟩
  intro hp
  rw [List.pairwise_cons] at hp
  have hcontra := hp.1 _ (List.mem_singleton_self _)
  rcases hcontra with hlt | ⟨_, hidx⟩
  · exact absurd hlt (by norm_num)
  · exact absurd hidx (by norm_num [cexChunkA, cexChunkB])

/-- C7 witness: the amended theorem applied to a one-chunk store with a
concretely evaluated search. -/
theorem searchSimilar_ranking_witness :
    (∀ r ∈ [(⟨"A", "c", 1, none⟩ : SearchResult)], jsOrReal none 0.5 ≤ r.score) ∧
    (∀ cid, (none : Option String) = some cid →
      ∀ r ∈ [(⟨"A", "c", 1, none⟩ : SearchResult)], r.courseId = cid) ∧
    [(⟨"A", "c", 1, none⟩ : SearchResult)].length ≤ jsOrNat none 3 ∧
    [(⟨"A", "c", 1, none⟩ : SearchResult)].Pairwise
      (fun r1 r2 => r2.score ≤ r1.score) :=
  searchSimilar_ranking true (.ok [(1 : ℝ)]) [cexChunkA] none none none
    [⟨"A", "c", 1, none⟩] searchSimilar_single_eval

/- ======================================================================
   Claim C8 — splitIntoChunks bounds.
   ====================================================================== -/

theorem dropWhile_length_le (p : Char → Bool) (l : List Char) :
    (l.dropWhile p).length ≤ l.length := by
  induction l with
  | nil => simp
  | cons c rest ih =>
    by_cases h : p c
    · simp only [List.dropWhile_cons, h, if_true, List.length_cons]
      omega
    · simp [List.dropWhile_cons, h]

theorem jsTrim_length_le (s : List Char) : (jsTrim s).length ≤ s.length := by
  unfold jsTrim
  calc ((s.dropWhile isJsWs).reverse.dropWhile isJsWs).reverse.length
      = ((s.dropWhile isJsWs).reverse.dropWhile isJsWs).length := by
        rw [List.length_reverse]
    _ ≤ (s.dropWhile isJsWs).reverse.length := dropWhile_length_le _ _
    _ = (s.dropWhile isJsWs).length := by rw [List.length_reverse]
    _ ≤ s.length := dropWhile_length_le _ _

theorem sumLen_cons (s : List Char) (l : List (List Char)) :
    sumLen (s :: l) = s.length + sumLen l := by
  simp [sumLen]

theorem sentencesGo_nil (cur : List Char) (b : Bool) :
    sentencesGo [] cur b = [cur] := rfl

theorem sentencesGo_skip_ws (c : Char) (rest cur : List Char)
    (h : isJsWs c = true) :
    sentencesGo (c :: rest) cur true = sentencesGo rest cur true := by
  simp [sentencesGo, h]

theorem sentencesGo_skip_nws (c : Char) (rest cur : List Char)
    (h : isJsWs c = false) :
    sentencesGo (c :: rest) cur true = sentencesGo rest [c] false := by
  simp [sentencesGo, h]

theorem sentencesGo_sep (c : Char) (rest cur : List Char)
    (h : (isJsWs c && lastIsPunct cur) = true) :
    sentencesGo (c :: rest) cur false = cur :: sentencesGo rest [] true := by
  simp [sentencesGo, h]

theorem sentencesGo_app (c : Char) (rest cur : List Char)
    (h : (isJsWs c && lastIsPunct cur) = false) :
    sentencesGo (c :: rest) cur false = sentencesGo rest (cur ++ [c]) false := by
  simp [sentencesGo, h]

theorem sentencesGo_len (cs : List Char) : ∀ (cur : List Char) (b : Bool),
    sumLen (sentencesGo cs cur b) + (sentencesGo cs cur b).length
      ≤ cs.length + cur.length + 1 := by
  induction cs with
  | nil =>
    intro cur b
    simp [sentencesGo_nil, sumLen]
  | cons c rest ih =>
    intro cur b
    cases b with
    | true =>
      cases hws : isJsWs c with
      | true =>
        rw [sentencesGo_skip_ws c rest cur hws]
        have := ih cur true
        simp only [List.length_cons]
        omega
      | false =>
        rw [sentencesGo_skip_nws c rest cur hws]
        have := ih [c] false
        simp only [List.length_cons, List.length_singleton,
          List.length_nil] at this ⊢
        omega
    | false =>
      cases hsep : (isJsWs c && lastIsPunct cur) with
      | true =>
        rw [sentencesGo_sep c rest cur hsep, sumLen_cons]
        have := ih [] true
        simp only [List.length_cons, List.length_nil] at this ⊢
        omega
      | false =>
        rw [sentencesGo_app c rest cur hsep]
        have := ih (cur ++ [c]) false
        simp only [List.length_cons, List.length_append,
          List.length_singleton, List.length_nil] at this ⊢
        omega

theorem lastIsPunct_ne_nil (cur : List Char) (h : lastIsPunct cur = true) :
    cur ≠ [] := by
  intro hnil
  rw [hnil] at h
  simp [lastIsPunct] at h

theorem sentencesGo_exists_nonempty (cs : List Char) : ∀ (cur : List Char),
    (cs ≠ [] ∨ cur ≠ []) → ∃ s ∈ sentencesGo cs cur false, s ≠ [] := by
  induction cs with
  | nil =>
    intro cur h
    rcases h with h | h
    · exact absurd rfl h
    · exact ⟨cur, by simp [sentencesGo_nil], h⟩
  | cons c rest ih =>
    intro cur _
    cases hsep : (isJsWs c && lastIsPunct cur) with
    | true =>
      have hcur : cur ≠ [] := lastIsPunct_ne_nil cur (by
        rcases Bool.and_eq_true_iff.mp hsep with ⟨_, h2⟩
        exact h2)
      exact ⟨cur, by rw [sentencesGo_sep c rest cur hsep]; simp, hcur⟩
    | false =>
      have hne : cur ++ [c] ≠ [] := by simp
      obtain ⟨s, hs, hsne⟩ := ih (cur ++ [c]) (Or.inr hne)
      refine ⟨s, ?_, hsne⟩
      rw [sentencesGo_app c rest cur hsep]
      exact hs

theorem joinBuffer_ne (l : List (List Char)) : ∀ (cur : List Char),
    ((∃ s ∈ l, s ≠ []) ∨ cur ≠ []) → joinBuffer cur l ≠ [] := by
  induction l with
  | nil =>
    intro cur h
    rcases h with ⟨s, hs, _⟩ | h
    · simp at hs
    · simpa [joinBuffer] using h
  | cons s rest ih =>
    intro cur h
    show joinBuffer (if cur = [] then s else cur ++ [' '] ++ s) rest ≠ []
    by_cases hcur : cur = []
    · rcases h with ⟨t, ht, htne⟩ | h
      · rcases List.mem_cons.mp ht with rfl | htr
        · exact ih _ (Or.inr (by simp [hcur, htne]))
        · exact ih _ (Or.inl ⟨t, htr, htne⟩)
      · exact absurd hcur h
    · refine ih _ (Or.inr ?_)
      simp [hcur]

theorem packGo_bound (maxChunkSize : Nat) :
    ∀ (l : List (List Char)) (cur : List Char),
      ∀ c ∈ packGo maxChunkSize l cur,
        c.length ≤ maxChunkSize + 1 ∨
        (c = jsTrim cur ∧ maxChunkSize < cur.length) ∨
        ∃ s ∈ l, c = jsTrim s ∧ maxChunkSize < s.length := by
  intro l
  induction l with
  | nil =>
    intro cur c hc
    unfold packGo at hc
    split at hc
    · simp at hc
    · rw [List.mem_singleton] at hc
      subst hc
      rcases le_or_lt cur.length (maxChunkSize + 1) with hle | hgt
      · exact Or.inl (le_trans (jsTrim_length_le cur) hle)
      · exact Or.inr (Or.inl ⟨rfl, by omega⟩)
  | cons s rest ih =>
    intro cur c hc
    unfold packGo at hc
    split at hc
    · rcases List.mem_cons.mp hc with rfl | hc2
      · rcases le_or_lt cur.length (maxChunkSize + 1) with hle | hgt
        · exact Or.inl (le_trans (jsTrim_length_le cur) hle)
        · exact Or.inr (Or.inl ⟨rfl, by omega⟩)
      · rcases ih s c hc2 with h | ⟨hcs, hlen⟩ | ⟨t, ht, h1, h2⟩
        · exact Or.inl h
        · exact Or.inr (Or.inr ⟨s, List.mem_cons_self s rest, hcs, hlen⟩)
        · exact Or.inr (Or.inr ⟨t, List.mem_cons_of_mem s ht, h1, h2⟩)
    · rename_i hnoflush
      rcases ih (if cur = [] then s else cur ++ [' '] ++ s) c hc
        with h | ⟨hcs, hlen⟩ | ⟨t, ht, h1, h2⟩
      · exact Or.inl h
      · by_cases hcur : cur = []
        · rw [if_pos hcur] at hcs hlen
          exact Or.inr (Or.inr ⟨s, List.mem_cons_self s rest, hcs, hlen⟩)
        · rw [if_neg hcur] at hcs hlen
          have hle : (cur ++ s).length ≤ maxChunkSize := by
            by_contra hgt
            exact hnoflush ⟨by omega, hcur⟩
          have hlen2 : (cur ++ [' '] ++ s).length ≤ maxChunkSize + 1 := by
            simp only [List.length_append, List.length_singleton] at hle ⊢
            omega
          rw [hcs]
          exact Or.inl (le_trans (jsTrim_length_le _) hlen2)
      · exact Or.inr (Or.inr ⟨t, List.mem_cons_of_mem s ht, h1, h2⟩)

theorem packGo_small (maxChunkSize : Nat) :
    ∀ (l : List (List Char)) (cur : List Char),
      cur.length + sumLen l + l.length ≤ maxChunkSize + 1 →
      packGo maxChunkSize l cur
        = if joinBuffer cur l = [] then [] else [jsTrim (joinBuffer cur l)] := by
  intro l
  induction l with
  | nil =>
    intro cur _
    rfl
  | cons s rest ih =>
    intro cur h
    rw [sumLen_cons] at h
    simp only [List.length_cons] at h
    have hle : (cur ++ s).length ≤ maxChunkSize := by
      simp only [List.length_append]
      omega
    unfold packGo
    rw [if_neg (fun hcontra => absurd hcontra.1 (by omega))]
    have harith : (if cur = [] then s else cur ++ [' '] ++ s).length
        + sumLen rest + rest.length ≤ maxChunkSize + 1 := by
      by_cases hcur : cur = []
      · rw [if_pos hcur]
        omega
      · rw [if_neg hcur]
        simp only [List.length_append, List.length_singleton]
        omega
    exact ih _ harith

/-- C8 (amended): every chunk is at most `maxChunkSize + 1` characters
long — one more than claimed, because the flush check
`(currentChunk + sentence).length > maxChunkSize` does not count the
joining space the append inserts — unless the chunk is the trim of a
single sentence that alone exceeds `maxChunkSize`; and every NONEMPTY
text of at most `maxChunkSize` characters yields exactly one chunk (the
empty text yields zero chunks, not one). -/
theorem splitIntoChunks_bounds (text : List Char) (maxChunkSize : Nat) :
    (∀ c ∈ splitIntoChunks text maxChunkSize,
      c.length ≤ maxChunkSize + 1 ∨
      ∃ s ∈ splitSentences text, c = jsTrim s ∧ maxChunkSize < s.length) ∧
    (text ≠ [] → text.length ≤ maxChunkSize →
      (splitIntoChunks text maxChunkSize).length = 1) := by
  constructor
  · intro c hc
    rcases packGo_bound maxChunkSize (splitSentences text) [] c hc
      with h | ⟨_, hlen⟩ | h
    · exact Or.inl h
    · simp at hlen
    · exact Or.inr h
  · intro hne hlen
    have hsum := sentencesGo_len text [] false
    have hsmall : ([] : List Char).length + sumLen (splitSentences text)
        + (splitSentences text).length ≤ maxChunkSize + 1 := by
      simp only [List.length_nil] at hsum ⊢
      unfold splitSentences
      omega
    rw [splitIntoChunks, packGo_small maxChunkSize (splitSentences text) [] hsmall]
    have hex : ∃ s ∈ splitSentences text, s ≠ [] :=
      sentencesGo_exists_nonempty text [] (Or.inl hne)
    rw [if_neg (joinBuffer_ne (splitSentences text) [] (Or.inl hex))]
    rfl

/-- C8 counterexample: with `maxChunkSize = 5`, the text `"ab. cd"`
(length 6, two sentences of lengths 3 and 2 — neither exceeding 5) is
returned as a single chunk of length 6, because the flush check ignores
the joining space; and the empty text (length 0 ≤ 5) yields zero chunks,
not one. -/
theorem splitIntoChunks_counterexample :
    splitIntoChunks ['a', 'b', '.', ' ', 'c', 'd'] 5
      = [['a', 'b', '.', ' ', 'c', 'd']] ∧
    (['a', 'b', '.', ' ', 'c', 'd'] : List Char).length = 6 ∧
    splitSentences ['a', 'b', '.', ' ', 'c', 'd']
      = [['a', 'b', '.'], ['c', 'd']] ∧
    (∀ s ∈ splitSentences ['a', 'b', '.', ' ', 'c', 'd'], s.length ≤ 5) ∧
    splitIntoChunks ([] : List Char) 5 = [] ∧
    ([] : List Char).length ≤ 5 :=
  ⟨by decide, by decide, by decide, by decide, by decide, by decide⟩

/-- C8 witness: the amended theorem applied to the text `"Hi."` with
`maxChunkSize = 1000` yields exactly one chunk. -/
theorem splitIntoChunks_bounds_witness :
    ['H', 'i', '.'] ≠ ([] : List Char) ∧
    (['H', 'i', '.'] : List Char).length ≤ 1000 ∧
    (splitIntoChunks ['H', 'i', '.'] 1000).length = 1 :=
  ⟨by decide, by decide,
   (splitIntoChunks_bounds ['H', 'i', '.'] 1000).2 (by decide) (by decide)⟩
